import Mathlib

/-!
Verification of the NostrDB JNI bridge (`ndb_jni.c`) against its
natural-language specification.  Pure C helpers are embedded directly;
engine routines of the underlying nostrdb library that the bridge calls
but whose implementation is not part of the bridging source are modelled
from the specification and marked as such in their doc comments.
Machine integers are modelled as `Nat` / `Int`; C byte buffers as
`List Nat` with bytes below 256; fallible JNI results as `Option`.
-/

namespace NdbJni

/-! ## JSON string escaping (`json_escape_string`, ndb_jni.c lines 181-213)

The C loop copies `src` into `dest` (capacity `dest_size`), escaping
`"` `\` `\n` `\r` `\t` as two-character sequences, dropping all other
control characters below 0x20, and truncating when the buffer fills.
Bytes are modelled as `Nat`; the loop stops at a NUL byte exactly as the
C `src[si]` test does.  The output list is the sequence of bytes written
before the terminating NUL. -/

/-- The bytes the loop body emits for one input byte `c`:
quote and backslash become backslash-prefixed pairs, newline, carriage
return and tab become their two-character escapes, the remaining
control characters are dropped, everything else is copied unchanged. -/
def escapeByte (c : Nat) : List Nat :=
  if c = 34 ∨ c = 92 then [92, c]
  else if c = 10 then [92, 110]
  else if c = 13 then [92, 114]
  else if c = 9 then [92, 116]
  else if c < 32 then []
  else [c]

/-- The escaping loop of `json_escape_string`: `di` is the output write
index; the loop runs while the current byte is non-NUL and
`di < dest_size - 2`, and the (dead) inner guard `di + 2 >= dest_size`
of the escape branches is retained from the source. -/
def jeLoop (destSize : Nat) : List Nat → Nat → List Nat
  | [], _ => []
  | c :: rest, di =>
    if c ≠ 0 ∧ di < destSize - 2 then
      if c = 34 ∨ c = 92 then
        if di + 2 ≥ destSize then [] else 92 :: c :: jeLoop destSize rest (di + 2)
      else if c = 10 then
        if di + 2 ≥ destSize then [] else 92 :: 110 :: jeLoop destSize rest (di + 2)
      else if c = 13 then
        if di + 2 ≥ destSize then [] else 92 :: 114 :: jeLoop destSize rest (di + 2)
      else if c = 9 then
        if di + 2 ≥ destSize then [] else 92 :: 116 :: jeLoop destSize rest (di + 2)
      else if c < 32 then
        jeLoop destSize rest di
      else
        c :: jeLoop destSize rest (di + 1)
    else []

/-- `json_escape_string` (ndb_jni.c): escape `src` into a buffer of
`destSize` bytes; the result is the NUL-terminated output's content. -/
def json_escape_string (destSize : Nat) (src : List Nat) : List Nat :=
  jeLoop destSize src 0

/-- Output-length invariant of the escaping loop: writing starts at `di`
and never reaches index `destSize - 1`, so the NUL terminator fits. -/
theorem jeLoop_length_le (destSize : Nat) (hds : 2 ≤ destSize) :
    ∀ (src : List Nat) (di : Nat), di ≤ destSize - 1 →
      di + (jeLoop destSize src di).length ≤ destSize - 1 := by
  intro src
  induction src with
  | nil => intro di h; simpa [jeLoop] using h
  | cons c rest ih =>
    intro di h
    simp only [jeLoop]
    by_cases hc : c ≠ 0 ∧ di < destSize - 2
    · have hdi2 : ¬ di + 2 ≥ destSize := by omega
      rcases hc with ⟨hc0, hlt⟩
      by_cases h1 : c = 34 ∨ c = 92
      · have := ih (di + 2) (by omega)
        simp [hc0, hlt, h1, hdi2]; omega
      · by_cases h2 : c = 10
        · have := ih (di + 2) (by omega)
          simp [hc0, hlt, h1, h2, hdi2]; omega
        · by_cases h3 : c = 13
          · have := ih (di + 2) (by omega)
            simp [hc0, hlt, h1, h2, h3, hdi2]; omega
          · by_cases h4 : c = 9
            · have := ih (di + 2) (by omega)
              simp [hc0, hlt, h1, h2, h3, h4, hdi2]; omega
            · by_cases h5 : c < 32
              · have := ih di (by omega)
                simp [hc0, hlt, h1, h2, h3, h4, h5]; omega
              · have := ih (di + 1) (by omega)
                simp [hc0, hlt, h1, h2, h3, h4, h5]; omega
    · simp [hc]
      omega

/-- The loop output is always the concatenated per-byte escapes of some
initial run of the input: truncation happens only at byte boundaries. -/
theorem jeLoop_take_form (destSize : Nat) :
    ∀ (src : List Nat) (di : Nat),
      ∃ k ≤ src.length,
        jeLoop destSize src di = ((src.take k).map escapeByte).flatten := by
  intro src
  induction src with
  | nil => intro di; exact ⟨0, Nat.le_refl 0, rfl⟩
  | cons c rest ih =>
    intro di
    simp only [jeLoop]
    by_cases hc : c ≠ 0 ∧ di < destSize - 2
    · rcases hc with ⟨hc0, hlt⟩
      by_cases h1 : c = 34 ∨ c = 92
      · by_cases hdi2 : di + 2 ≥ destSize
        · exact ⟨0, by omega, by simp [hc0, hlt, h1, hdi2]⟩
        · obtain ⟨k, hk, he⟩ := ih (di + 2)
          refine ⟨k + 1, by simpa using hk, ?_⟩
          simp [hc0, hlt, h1, hdi2, he, escapeByte]
      · by_cases h2 : c = 10
        · by_cases hdi2 : di + 2 ≥ destSize
          · exact ⟨0, by omega, by simp [hc0, hlt, h1, h2, hdi2]⟩
          · obtain ⟨k, hk, he⟩ := ih (di + 2)
            refine ⟨k + 1, by simpa using hk, ?_⟩
            simp [hc0, hlt, h1, h2, hdi2, he, escapeByte]
        · by_cases h3 : c = 13
          · by_cases hdi2 : di + 2 ≥ destSize
            · exact ⟨0, by omega, by simp [hc0, hlt, h1, h2, h3, hdi2]⟩
            · obtain ⟨k, hk, he⟩ := ih (di + 2)
              refine ⟨k + 1, by simpa using hk, ?_⟩
              simp [hc0, hlt, h1, h2, h3, hdi2, he, escapeByte]
          · by_cases h4 : c = 9
            · by_cases hdi2 : di + 2 ≥ destSize
              · exact ⟨0, by omega, by simp [hc0, hlt, h1, h2, h3, h4, hdi2]⟩
              · obtain ⟨k, hk, he⟩ := ih (di + 2)
                refine ⟨k + 1, by simpa using hk, ?_⟩
                simp [hc0, hlt, h1, h2, h3, h4, hdi2, he, escapeByte]
            · by_cases h5 : c < 32
              · obtain ⟨k, hk, he⟩ := ih di
                refine ⟨k + 1, by simpa using hk, ?_⟩
                simp [hc0, hlt, h1, h2, h3, h4, h5, he, escapeByte]
              · obtain ⟨k, hk, he⟩ := ih (di + 1)
                refine ⟨k + 1, by simpa using hk, ?_⟩
                simp [hc0, hlt, h1, h2, h3, h4, h5, he, escapeByte]
    · exact ⟨0, by omega, by simp [hc]⟩

/-- When the buffer is large enough (and the input has no interior NUL),
no truncation occurs: the loop emits the escape of every input byte. -/
theorem jeLoop_complete (destSize : Nat) :
    ∀ (src : List Nat) (di : Nat), (∀ c ∈ src, c ≠ 0) →
      di + 2 * src.length < destSize - 1 →
      jeLoop destSize src di = (src.map escapeByte).flatten := by
  intro src
  induction src with
  | nil => intro di _ _; simp [jeLoop]
  | cons c rest ih =>
    intro di hz hfit
    have hc0 : c ≠ 0 := hz c (List.mem_cons_self c rest)
    have hzr : ∀ x ∈ rest, x ≠ 0 := fun x hx => hz x (List.mem_cons_of_mem c hx)
    have hlen : di + 2 * rest.length + 2 < destSize - 1 := by
      simp only [List.length_cons] at hfit; omega
    have hlt : di < destSize - 2 := by omega
    have hdi2 : ¬ di + 2 ≥ destSize := by omega
    simp only [jeLoop]
    by_cases h1 : c = 34 ∨ c = 92
    · simp [hc0, hlt, h1, hdi2, ih (di + 2) hzr (by omega), escapeByte]
    · by_cases h2 : c = 10
      · simp [hc0, hlt, h1, h2, hdi2, ih (di + 2) hzr (by omega), escapeByte]
      · by_cases h3 : c = 13
        · simp [hc0, hlt, h1, h2, h3, hdi2, ih (di + 2) hzr (by omega), escapeByte]
        · by_cases h4 : c = 9
          · simp [hc0, hlt, h1, h2, h3, h4, hdi2, ih (di + 2) hzr (by omega), escapeByte]
          · by_cases h5 : c < 32
            · simp [hc0, hlt, h1, h2, h3, h4, h5, ih di hzr (by omega), escapeByte]
            · simp [hc0, hlt, h1, h2, h3, h4, h5, ih (di + 1) hzr (by omega), escapeByte]

/-- C8: for every input byte string and every `destSize ≥ 2`,
`json_escape_string` produces a NUL-terminated output of length strictly
below `destSize`; the output is the concatenation of the per-byte escapes
of an initial run of the input (truncation only at byte boundaries), is
the full escape of the input whenever the buffer is large enough, and the
per-byte escape replaces quote, backslash, newline, carriage return and
tab by their two-character backslash escapes, drops every other byte
below 0x20, and copies all remaining bytes unchanged. -/
theorem json_escape_string_spec (destSize : Nat) (src : List Nat) (hds : 2 ≤ destSize) :
    (json_escape_string destSize src).length < destSize ∧
    (∃ k ≤ src.length,
      json_escape_string destSize src = ((src.take k).map escapeByte).flatten) ∧
    ((∀ c ∈ src, c ≠ 0) → 2 * src.length + 1 < destSize →
      json_escape_string destSize src = (src.map escapeByte).flatten) ∧
    escapeByte 34 = [92, 34] ∧ escapeByte 92 = [92, 92] ∧
    escapeByte 10 = [92, 110] ∧ escapeByte 13 = [92, 114] ∧
    escapeByte 9 = [92, 116] ∧
    (∀ c, c < 32 → c ≠ 9 → c ≠ 10 → c ≠ 13 → escapeByte c = []) ∧
    (∀ c, 32 ≤ c → c ≠ 34 → c ≠ 92 → escapeByte c = [c]) := by
  refine ⟨?_, jeLoop_take_form destSize src 0, ?_, rfl, rfl, rfl, rfl, rfl, ?_, ?_⟩
  · have := jeLoop_length_le destSize hds src 0 (by omega)
    unfold json_escape_string
    omega
  · intro hz hfit
    exact jeLoop_complete destSize src 0 hz (by omega)
  · intro c h1 h2 h3 h4
    simp only [escapeByte]
    have : ¬ (c = 34 ∨ c = 92) := by omega
    simp [this, h2, h3, h4, h1]
  · intro c h1 h2 h3
    have n1 : c ≠ 10 := by omega
    have n2 : c ≠ 13 := by omega
    have n3 : c ≠ 9 := by omega
    have n4 : ¬ c < 32 := by omega
    have h : ¬ (c = 34 ∨ c = 92) := by
      intro hc
      rcases hc with hc | hc
      · exact h2 hc
      · exact h3 hc
    simp [escapeByte, h, n1, n2, n3, n4]

/-- Witness for C8 at a concrete input containing a quote, a newline, a
dropped control byte and ordinary bytes, with buffer size 20. -/
theorem json_escape_string_spec_witness :
    2 ≤ 20 ∧ (json_escape_string 20 [97, 34, 98, 10, 7, 200]).length < 20 :=
  ⟨by decide, (json_escape_string_spec 20 [97, 34, 98, 10, 7, 200] (by decide)).1⟩

/-! ## Tag elements and on-demand hex rendering
(`nativeNoteTags`, ndb_jni.c lines 624-703)

A stored tag element is either a packed inline string (`NDB_PACKED_STR`)
or a packed 32-byte identifier (`NDB_PACKED_ID`).  The bridge renders a
packed identifier as lowercase hex via `sprintf("%02x", ...)` over its 32
bytes at read time; inline strings are passed through unchanged. -/

/-- A stored tag element: the two-variant union of the binary record
model (`ndb_str` with flag `NDB_PACKED_STR` or `NDB_PACKED_ID`). -/
inductive TagElem : Type
  | str (s : String)
  | id (bytes : List Nat)
deriving DecidableEq

/-- One lowercase hex digit, as `sprintf("%02x", ...)` emits it:
`0`-`9` for values below ten, `a`-`f` for ten to fifteen. -/
def hexDigit (n : Nat) : Char :=
  if n < 10 then Char.ofNat (48 + n) else Char.ofNat (87 + n)

/-- The two hex characters `sprintf("%02x", b)` writes for a byte `b`. -/
def hexByte (b : Nat) : List Char :=
  [hexDigit (b / 16), hexDigit (b % 16)]

/-- Hex rendering of an identifier's bytes, as the loop at
ndb_jni.c lines 684-688 produces it. -/
def hexOfBytes (bs : List Nat) : String :=
  String.mk ((bs.map hexByte).flatten)

/-- The string the bridge stores into the tag array for one element:
inline strings unchanged, packed identifiers rendered as hex on demand. -/
def renderElem : TagElem → String
  | .str s => s
  | .id bs => hexOfBytes bs

/-- Value of a lowercase hex character (inverse of `hexDigit`). -/
def hexCharVal (c : Char) : Nat :=
  if c.toNat ≤ 57 then c.toNat - 48 else c.toNat - 87

/-- Decode a hex character string two characters at a time. -/
def hexDecode : List Char → List Nat
  | c1 :: c2 :: rest => (hexCharVal c1 * 16 + hexCharVal c2) :: hexDecode rest
  | _ => []

theorem hexCharVal_hexDigit : ∀ n < 16, hexCharVal (hexDigit n) = n := by decide

theorem hexDigit_isHexChar : ∀ n < 16,
    (48 ≤ (hexDigit n).toNat ∧ (hexDigit n).toNat ≤ 57) ∨
    (97 ≤ (hexDigit n).toNat ∧ (hexDigit n).toNat ≤ 102) := by decide

/-- Hex rendering is invertible on byte lists: nothing is lost. -/
theorem hexDecode_hexOfBytes : ∀ bs : List Nat, (∀ b ∈ bs, b < 256) →
    hexDecode ((bs.map hexByte).flatten) = bs := by
  intro bs
  induction bs with
  | nil => intro _; rfl
  | cons b rest ih =>
    intro hb
    have hblt : b < 256 := hb b (List.mem_cons_self b rest)
    have h1 : b / 16 < 16 := by omega
    have h2 : b % 16 < 16 := by omega
    have hfl : ((b :: rest).map hexByte).flatten
        = hexDigit (b / 16) :: hexDigit (b % 16) :: ((rest.map hexByte).flatten) := by
      simp [hexByte]
    rw [hfl]
    simp only [hexDecode]
    rw [hexCharVal_hexDigit _ h1, hexCharVal_hexDigit _ h2,
      ih (fun x hx => hb x (List.mem_cons_of_mem b hx))]
    congr 1
    omega

/-- Hex rendering emits exactly two characters per byte. -/
theorem length_flatten_map_hexByte : ∀ bs : List Nat,
    ((bs.map hexByte).flatten).length = 2 * bs.length := by
  intro bs
  induction bs with
  | nil => rfl
  | cons b rest ih =>
    simp only [List.map_cons, List.flatten_cons, List.length_append, ih,
      List.length_cons, hexByte, List.length_cons, List.length_nil]
    omega

/-! ## Notes, the note store, and the retrieval bridge functions

JNI pointer arguments are modelled as `Nat` handles with `0` for NULL.
The nostrdb lookup routines are not part of the bridging source; they
are modelled from the specification's lookup contract. -/

/-- An event record as the bridge reads it: 32-byte identifier, 32-byte
author key, 64-byte signature, creation timestamp, kind, content and the
ordered tag sequence. -/
structure Note : Type where
  nid : List Nat
  pubkey : List Nat
  sig : List Nat
  created_at : Nat
  kind : Nat
  content : String
  tags : List (List TagElem)
deriving DecidableEq

/-- The keyed note store visible through one snapshot: Record Key to
record, keys unique (not needed for the claims below). -/
abbrev NoteStore := List (Nat × Note)

/-- Modelled from the spec: `get_by_key(snapshot, key) -> record|not_found`
(the engine routine `ndb_get_note_by_key`, absent from the bridging
source): a keyed point lookup returning the record or not-found. -/
def ndb_get_note_by_key (store : NoteStore) (key : Nat) : Option Note :=
  (store.find? (fun p => p.1 == key)).map (fun p => p.2)

/-- Modelled from the spec:
`get_by_identifier(snapshot, 32 bytes) -> (record, key)|not_found`
(the engine routine `ndb_get_note_by_id`, absent from the bridging
source): an identifier-indexed lookup returning record and key. -/
def ndb_get_note_by_id (store : NoteStore) (nid : List Nat) : Option (Note × Nat) :=
  (store.find? (fun p => p.2.nid == nid)).map (fun p => (p.2, p.1))

/-- `nativeGetNoteById` (ndb_jni.c lines 127-157): NULL on a null engine
or transaction handle, NULL when the identifier lookup fails, otherwise
the note. -/
def nativeGetNoteById (ndb txn : Nat) (store : NoteStore) (nid : List Nat) :
    Option Note :=
  if ndb = 0 ∨ txn = 0 then none
  else
    match ndb_get_note_by_id store nid with
    | none => none
    | some (n, _) => some n

/-- `nativeNoteContent` (ndb_jni.c lines 503-523): NULL on null handles
or an absent key, otherwise the note's content string. -/
def nativeNoteContent (ndb txn : Nat) (store : NoteStore) (key : Nat) :
    Option String :=
  if ndb = 0 ∨ txn = 0 then none
  else (ndb_get_note_by_key store key).map Note.content

/-- One tag as the bridge renders it: every element through `renderElem`. -/
def renderTag (t : List TagElem) : List String :=
  t.map renderElem

/-- `nativeNoteTags` (ndb_jni.c lines 624-703): NULL on null handles, an
absent key, or a note with zero tags; otherwise the rendered tag array. -/
def nativeNoteTags (ndb txn : Nat) (store : NoteStore) (key : Nat) :
    Option (List (List String)) :=
  if ndb = 0 ∨ txn = 0 then none
  else
    match ndb_get_note_by_key store key with
    | none => none
    | some n => if n.tags.length = 0 then none else some (n.tags.map renderTag)

/-- C5: reading a stored note's tags passes inline strings through
unchanged and renders each packed 32-byte identifier as its 64-character
hex string (all characters hex digits, and losslessly decodable back to
the 32 stored bytes); the hex form is computed at read time by the
bridge from the stored raw bytes, as the final conjunct shows on the
tag-access result. -/
theorem note_tags_render_spec (s : String) (bs : List Nat) (store : NoteStore)
    (key : Nat) (n : Note)
    (h32 : bs.length = 32) (hb : ∀ b ∈ bs, b < 256)
    (hn : ndb_get_note_by_key store key = some n) (ht : n.tags ≠ []) :
    renderElem (TagElem.str s) = s ∧
    (renderElem (TagElem.id bs)).length = 64 ∧
    hexDecode (renderElem (TagElem.id bs)).data = bs ∧
    (∀ c ∈ (renderElem (TagElem.id bs)).data,
      (48 ≤ c.toNat ∧ c.toNat ≤ 57) ∨ (97 ≤ c.toNat ∧ c.toNat ≤ 102)) ∧
    nativeNoteTags 1 1 store key
      = some (n.tags.map (fun t => t.map renderElem)) := by
  refine ⟨rfl, ?_, ?_, ?_, ?_⟩
  · show ((bs.map hexByte).flatten).length = 64
    rw [length_flatten_map_hexByte, h32]
  · exact hexDecode_hexOfBytes bs hb
  · intro c hc
    have hc' : c ∈ (bs.map hexByte).flatten := hc
    rw [List.mem_flatten] at hc'
    obtain ⟨l, hl, hcl⟩ := hc'
    rw [List.mem_map] at hl
    obtain ⟨b, hbm, hbe⟩ := hl
    have hblt : b < 256 := hb b hbm
    subst hbe
    simp only [hexByte, List.mem_cons, List.not_mem_nil, or_false] at hcl
    rcases hcl with hce | hce
    · subst hce; exact hexDigit_isHexChar (b / 16) (by omega)
    · subst hce; exact hexDigit_isHexChar (b % 16) (by omega)
  · have hlen : n.tags.length ≠ 0 := by
      intro h0
      exact ht (List.eq_nil_of_length_eq_zero h0)
    simp [nativeNoteTags, hn, hlen, renderTag]

/-- C6: looking up an identifier absent from the store returns not-found
(null) from `nativeGetNoteById`, and an absent record key returns null
from the key-based content accessor; both functions are total, so no
input crashes them. -/
theorem lookup_absent_spec (store : NoteStore) (nid : List Nat) (key : Nat)
    (hid : ∀ p ∈ store, p.2.nid ≠ nid) (hkey : ∀ p ∈ store, p.1 ≠ key) :
    nativeGetNoteById 1 1 store nid = none ∧
    nativeNoteContent 1 1 store key = none := by
  constructor
  · have h1 : store.find? (fun p => p.2.nid == nid) = none := by
      rw [List.find?_eq_none]
      intro p hp
      simp [hid p hp]
    simp [nativeGetNoteById, ndb_get_note_by_id, h1]
  · have h2 : store.find? (fun p => p.1 == key) = none := by
      rw [List.find?_eq_none]
      intro p hp
      simp [hkey p hp]
    simp [nativeNoteContent, ndb_get_note_by_key, h2]

/-- C10: a stored note with zero tags makes `nativeNoteTags` return
null, the same value it returns for an absent note key, so a caller
cannot tell a tagless note from a missing one through this operation. -/
theorem tagless_note_tags_null (store : NoteStore) (key keyAbsent : Nat) (n : Note)
    (hn : ndb_get_note_by_key store key = some n) (ht : n.tags = [])
    (habs : ndb_get_note_by_key store keyAbsent = none) :
    nativeNoteTags 1 1 store key = none ∧
    nativeNoteTags 1 1 store keyAbsent = none ∧
    nativeNoteTags 1 1 store key = nativeNoteTags 1 1 store keyAbsent := by
  refine ⟨?_, ?_, ?_⟩
  · simp [nativeNoteTags, hn, ht]
  · simp [nativeNoteTags, habs]
  · simp [nativeNoteTags, hn, ht, habs]

/-! ### Concrete witnesses for the retrieval claims -/

/-- A 32-byte identifier of 0xab bytes. -/
def demoIdBytes : List Nat := List.replicate 32 171

/-- A demonstration note with one tag holding an inline string and a
packed identifier. -/
def demoNote : Note :=
  { nid := List.replicate 32 1
    pubkey := List.replicate 32 2
    sig := List.replicate 64 3
    created_at := 5
    kind := 1
    content := "hi"
    tags := [[TagElem.str "e", TagElem.id demoIdBytes]] }

/-- A demonstration note with zero tags. -/
def demoTaglessNote : Note :=
  { nid := List.replicate 32 4
    pubkey := List.replicate 32 2
    sig := List.replicate 64 3
    created_at := 6
    kind := 1
    content := "bare"
    tags := [] }

/-- A store holding the two demonstration notes under keys 7 and 3. -/
def demoStore : NoteStore := [(7, demoNote), (3, demoTaglessNote)]

/-- Witness for C5 at the demonstration store. -/
theorem note_tags_render_spec_witness :
    renderElem (TagElem.str "x") = "x" ∧
    (renderElem (TagElem.id demoIdBytes)).length = 64 :=
  have h := note_tags_render_spec "x" demoIdBytes demoStore 7 demoNote
    (by decide) (by decide) rfl (by decide)
  ⟨h.1, h.2.1⟩

/-- Witness for C6: key 9 and an all-zero identifier are absent from the
demonstration store. -/
theorem lookup_absent_spec_witness :
    nativeGetNoteById 1 1 demoStore (List.replicate 32 0) = none ∧
    nativeNoteContent 1 1 demoStore 9 = none :=
  lookup_absent_spec demoStore (List.replicate 32 0) 9 (by decide) (by decide)

/-- Witness for C10: the tagless note under key 3 and the absent key 4
both yield null from the tag accessor. -/
theorem tagless_note_tags_null_witness :
    nativeNoteTags 1 1 demoStore 3 = none ∧
    nativeNoteTags 1 1 demoStore 4 = none ∧
    nativeNoteTags 1 1 demoStore 3 = nativeNoteTags 1 1 demoStore 4 :=
  tagless_note_tags_null demoStore 3 4 demoTaglessNote rfl rfl rfl

/-! ## Engine lifecycle: close / destroy (`nativeDestroy`, ndb_jni.c lines 55-66)

The JNI destroy entry has return type `void`: whatever the engine-level
close does, no status reaches the caller. -/

/-- Engine lifecycle state: whether the engine is alive and how many
snapshots are currently open on it. -/
structure EngineWorld : Type where
  alive : Bool
  openSnapshots : Nat
deriving DecidableEq

/-- The close outcomes the specification names: `Busy` (live snapshots)
or a completed close. -/
inductive CloseOutcome : Type
  | busy
  | closed
deriving DecidableEq

/-- Modelled from the spec: "Destroying the engine while snapshots are
still open … refuse and return `Busy`" — the engine close
(`ndb_destroy`, absent from the bridging source) refuses with `Busy`
and leaves the engine untouched while any snapshot is open, and tears
the engine down once every snapshot has been ended. -/
def ndb_destroy (w : EngineWorld) : CloseOutcome × EngineWorld :=
  if 0 < w.openSnapshots then (CloseOutcome.busy, w)
  else (CloseOutcome.closed, { w with alive := false })

/-- State effect of `nativeDestroy` (ndb_jni.c lines 55-66): for a
non-null handle the engine close is invoked unconditionally, a null
handle is a no-op. -/
def nativeDestroyWorld (w : EngineWorld) (h : Nat) : EngineWorld :=
  if h ≠ 0 then (ndb_destroy w).2 else w

/-- Value `nativeDestroy` conveys to its caller: the JNI signature is
`void`, so no close outcome is returned for any state or handle. -/
def nativeDestroyOutcome (_w : EngineWorld) (_h : Nat) : Option CloseOutcome :=
  none

/-- C2 counterexample: with the engine alive and one snapshot open, the
close call does not return `Busy` — its void return conveys no outcome
at all. -/
theorem close_busy_counterexample :
    nativeDestroyOutcome ⟨true, 1⟩ 1 ≠ some CloseOutcome.busy := by
  decide

/-- C2 amended: the bridge close returns no status; with the
engine-level close modelled from the spec, closing with live snapshots
leaves the engine state untouched (hence usable), and the teardown takes
effect only once every snapshot has been ended — but no `Busy` value
reaches the caller. -/
theorem close_spec_amended (w : EngineWorld) (h : Nat) (hh : h ≠ 0) :
    nativeDestroyOutcome w h = none ∧
    (0 < w.openSnapshots → nativeDestroyWorld w h = w) ∧
    (w.openSnapshots = 0 → (nativeDestroyWorld w h).alive = false) := by
  refine ⟨rfl, ?_, ?_⟩ <;> intro hs <;>
    simp [nativeDestroyWorld, ndb_destroy, hh, hs]

/-- Witness for the amended C2 at the engine state with one open
snapshot and a non-null handle. -/
theorem close_spec_amended_witness :
    nativeDestroyOutcome ⟨true, 1⟩ 1 = none ∧
    nativeDestroyWorld ⟨true, 1⟩ 1 = ⟨true, 1⟩ :=
  have h := close_spec_amended ⟨true, 1⟩ 1 (by decide)
  ⟨h.1, h.2.1 (by decide)⟩

/-! ## Subscriptions and polling (`nativePollForNotes`, ndb_jni.c lines 452-485)

The bridge allocates a key buffer, asks the engine for up to
`max_notes` pending keys, and returns NULL whenever the reported count
is not positive. -/

/-- The live subscriptions of an engine: identifier with the pending
note keys awaiting delivery. -/
structure SubWorld : Type where
  subs : List (Nat × List Nat)
deriving DecidableEq

/-- Modelled from the spec: "`poll` drains up to `max_count` pending
matches in ingestion order (oldest pending first)" — the engine's
`ndb_poll_for_notes` (absent from the bridging source) returns through
the C ABI only the integer count of keys written, so its failure on an
unknown subscription id can surface only as a count of zero. -/
def ndb_poll_for_notes (w : SubWorld) (subid maxNotes : Nat) : Int × List Nat :=
  match w.subs.find? (fun p => p.1 == subid) with
  | none => (0, [])
  | some p => (((min p.2.length maxNotes : Nat) : Int), p.2.take maxNotes)

/-- Modelled from the spec: "cancellation invalidates the identifier" —
`ndb_unsubscribe` (absent from the bridging source) removes the
subscription. -/
def ndb_unsubscribe (w : SubWorld) (subid : Nat) : SubWorld :=
  ⟨w.subs.filter (fun p => ! (p.1 == subid))⟩

/-- `nativePollForNotes` (ndb_jni.c lines 452-485): NULL on a null
engine handle and whenever the engine count is not positive, otherwise
the polled keys. -/
def nativePollForNotes (ndb : Nat) (w : SubWorld) (subid maxNotes : Nat) :
    Option (List Nat) :=
  if ndb = 0 then none
  else
    let r := ndb_poll_for_notes w subid maxNotes
    if r.1 ≤ 0 then none else some r.2

/-- C3 counterexample: polling the never-issued identifier 7 and polling
the live subscription 5 whose pending queue is empty return the same
value, null — no distinguishable UnknownSubscription error exists. -/
theorem poll_unknown_counterexample :
    nativePollForNotes 1 ⟨[(5, [])]⟩ 7 10 = none ∧
    nativePollForNotes 1 ⟨[(5, [])]⟩ 5 10 = none ∧
    nativePollForNotes 1 ⟨[(5, [])]⟩ 7 10 = nativePollForNotes 1 ⟨[(5, [])]⟩ 5 10 := by
  decide

/-- C3 amended: polling an identifier that was never issued returns
null; polling an identifier just cancelled by unsubscribe returns null;
and polling a live subscription with an empty pending queue returns the
very same null, so the three cases are indistinguishable. -/
theorem poll_unknown_amended (w wAny : SubWorld) (subid maxNotes : Nat)
    (hunk : ∀ p ∈ w.subs, p.1 ≠ subid) :
    nativePollForNotes 1 w subid maxNotes = none ∧
    nativePollForNotes 1 (ndb_unsubscribe wAny subid) subid maxNotes = none ∧
    nativePollForNotes 1 ⟨(subid, []) :: w.subs⟩ subid maxNotes = none := by
  refine ⟨?_, ?_, ?_⟩
  · have hf : w.subs.find? (fun p => p.1 == subid) = none := by
      rw [List.find?_eq_none]
      intro p hp
      simp [hunk p hp]
    simp [nativePollForNotes, ndb_poll_for_notes, hf]
  · have hf : (ndb_unsubscribe wAny subid).subs.find? (fun p => p.1 == subid) = none := by
      rw [List.find?_eq_none]
      intro p hp
      have := List.mem_filter.mp hp
      simpa using this.2
    simp [nativePollForNotes, ndb_poll_for_notes, hf]
  · simp [nativePollForNotes, ndb_poll_for_notes, List.find?]

/-- Witness for the amended C3 at a world holding only subscription 5,
polled at the foreign identifier 7. -/
theorem poll_unknown_amended_witness :
    nativePollForNotes 1 ⟨[(5, [3])]⟩ 7 10 = none ∧
    nativePollForNotes 1 (ndb_unsubscribe ⟨[(7, [4])]⟩ 7) 7 10 = none :=
  have h := poll_unknown_amended ⟨[(5, [3])]⟩ ⟨[(7, [4])]⟩ 7 10 (by decide)
  ⟨h.1, h.2.1⟩

/-! ## Query bridge result marshalling (`nativeQuery`, ndb_jni.c lines 397-434)

The bridge returns NULL on null handles, on engine failure, and — the
case C4 is about — when the query succeeded with zero matches. -/

/-- Result marshalling of `nativeQuery` (ndb_jni.c lines 397-434) as a
function of the engine's status (`ok`, 1 on success) and the result
keys it wrote: NULL on a null transaction or filter handle, NULL when
the status is not 1 or the count is zero, otherwise the keys. -/
def nativeQueryBridge (txn fil : Nat) (ok : Int) (keys : List Nat) :
    Option (List Nat) :=
  if txn = 0 ∨ fil = 0 then none
  else if ok ≠ 1 ∨ keys.length = 0 then none
  else some keys

/-- C4 counterexample: a successful query with zero matches returns
null, not an empty array, and that null is the very value the failure
paths (here: a null transaction handle) return; a poll on a live
subscription with nothing pending likewise does not return an empty
array. -/
theorem empty_query_counterexample :
    nativeQueryBridge 1 1 1 [] = none ∧
    nativeQueryBridge 1 1 1 [] ≠ some [] ∧
    nativeQueryBridge 0 1 1 [] = nativeQueryBridge 1 1 1 [] ∧
    nativePollForNotes 1 ⟨[(8, [])]⟩ 8 10 ≠ some [] := by
  refine ⟨rfl, by decide, rfl, by decide⟩

/-- C4 amended: a query with no matching records returns null — the
same value as every failure path — rather than an empty array (and
rather than any crash: the function is total); a poll on a live
subscription with no pending matches likewise returns null. -/
theorem empty_query_amended (txn fil : Nat) (ok : Int) (w : SubWorld)
    (subid maxNotes : Nat) :
    nativeQueryBridge txn fil ok [] = none ∧
    nativeQueryBridge 0 fil ok [] = nativeQueryBridge txn fil ok [] ∧
    nativePollForNotes 1 ⟨(subid, []) :: w.subs⟩ subid maxNotes = none := by
  refine ⟨?_, ?_, ?_⟩
  · by_cases h : txn = 0 ∨ fil = 0 <;> simp [nativeQueryBridge, h]
  · by_cases h : txn = 0 ∨ fil = 0 <;> simp [nativeQueryBridge, h]
  · simp [nativePollForNotes, ndb_poll_for_notes, List.find?]

/-! ## Filter matching and the query engine (spec §4.5)

The query engine itself (`ndb_query`) is not part of the bridging
source; matching and result selection are modelled from the
specification: AND across field criteria, OR (membership) within a
field's elements, results ordered by descending creation timestamp with
ties by descending Record Key, truncated to `limit`. -/

/-- A filter element: a 32-byte identifier, an unsigned integer, or a
string, as the filter builder's add-element operations supply them. -/
inductive FilterElem : Type
  | id (v : List Nat)
  | int (n : Nat)
  | str (s : String)
deriving DecidableEq

/-- The filter field types of spec §3: identifiers, authors, kinds,
timestamp bounds, or a named tag. -/
inductive FilterFieldType : Type
  | ids
  | authors
  | kinds
  | sinceTime
  | untilTime
  | tagLetter (letter : String)
deriving DecidableEq

/-- One finalized field criterion: a field type and its element set. -/
structure FilterField : Type where
  ftype : FilterFieldType
  elems : List FilterElem
deriving DecidableEq

/-- A finalized filter: the ordered sequence of its field criteria. -/
abbrev Filter := List FilterField

/-- Whether a filter element equals a stored tag value: identifier
elements match packed identifiers, string elements match inline
strings. -/
def elemMatchesTagVal : FilterElem → TagElem → Bool
  | .id v, TagElem.id w => v == w
  | .str s, TagElem.str t => s == t
  | _, _ => false

/-- Modelled from the spec (§4.5): a record matches one field criterion
when it matches any of the field's listed elements — membership for
identifiers, authors, kinds and named-tag values, bound satisfaction
for the timestamp fields. -/
def matchesField (n : Note) (f : FilterField) : Bool :=
  match f.ftype with
  | .ids => f.elems.any (fun e => e == FilterElem.id n.nid)
  | .authors => f.elems.any (fun e => e == FilterElem.id n.pubkey)
  | .kinds => f.elems.any (fun e => e == FilterElem.int n.kind)
  | .sinceTime => f.elems.any (fun e =>
      match e with
      | .int t => decide (t ≤ n.created_at)
      | _ => false)
  | .untilTime => f.elems.any (fun e =>
      match e with
      | .int t => decide (n.created_at ≤ t)
      | _ => false)
  | .tagLetter letter => f.elems.any (fun e =>
      n.tags.any (fun t =>
        match t with
        | TagElem.str l :: v :: _ => l == letter && elemMatchesTagVal e v
        | _ => false))

/-- Modelled from the spec (§4.5): a record matches a filter when it
matches every present field criterion (AND across fields). -/
def matchesFilter (n : Note) (f : Filter) : Bool :=
  f.all (matchesField n)

/-- The result order of spec §4.5 on keyed records: `qLE a b` holds when
`a` is at least as recent as `b` — strictly newer creation timestamp, or
an equal timestamp and an at-least-as-large Record Key. -/
def qLE (a b : Nat × Note) : Prop :=
  b.2.created_at < a.2.created_at ∨
    (b.2.created_at = a.2.created_at ∧ b.1 ≤ a.1)

instance : DecidableRel qLE := fun a b => by
  unfold qLE
  exact inferInstance

instance : IsTotal (Nat × Note) qLE := by
  constructor
  intro a b
  unfold qLE
  omega

instance : IsTrans (Nat × Note) qLE := by
  constructor
  intro a b c hab hbc
  unfold qLE at hab hbc ⊢
  omega

/-- Modelled from the spec (§4.5): `ndb_query` (absent from the bridging
source) — the matching records, sorted most-recent first with ties by
descending Record Key, truncated to `limit`. -/
def ndb_query_model (store : NoteStore) (f : Filter) (limit : Nat) : NoteStore :=
  ((store.filter (fun p => matchesFilter p.2 f)).insertionSort qLE).take limit

/-- `nativeQuery` (ndb_jni.c lines 397-434) composed with the modelled
engine: NULL on null handles or zero matches, otherwise the Record Keys
of the query result. -/
def nativeQuery (txn fil : Nat) (store : NoteStore) (f : Filter) (limit : Nat) :
    Option (List Nat) :=
  if txn = 0 ∨ fil = 0 then none
  else
    let res := ndb_query_model store f limit
    if res.length = 0 then none else some (res.map Prod.fst)

/-- C1: the query returns at most `limit` records; the result is sorted
by descending creation timestamp with ties by descending Record Key
(`qLE`); every returned record is a store record matching every present
field criterion; every matching record left out is no more recent than
any record returned (so the `limit` most-recent matches are the ones
returned); when at most `limit` records match, every match is returned;
and the bridge returns exactly the result's Record Keys (null when
there are none). -/
theorem query_spec (store : NoteStore) (f : Filter) (limit : Nat) :
    (ndb_query_model store f limit).length ≤ limit ∧
    (ndb_query_model store f limit).Sorted qLE ∧
    (∀ p ∈ ndb_query_model store f limit,
      p ∈ store ∧ matchesFilter p.2 f = true) ∧
    (∀ q ∈ store, matchesFilter q.2 f = true →
      q ∉ ndb_query_model store f limit →
      ∀ p ∈ ndb_query_model store f limit, qLE p q) ∧
    ((store.filter (fun p => matchesFilter p.2 f)).length ≤ limit →
      ∀ q ∈ store, matchesFilter q.2 f = true →
      q ∈ ndb_query_model store f limit) ∧
    (∀ txn fil : Nat, txn ≠ 0 → fil ≠ 0 →
      nativeQuery txn fil store f limit
        = if (ndb_query_model store f limit).length = 0 then none
          else some ((ndb_query_model store f limit).map Prod.fst)) := by
  set cand := store.filter (fun p => matchesFilter p.2 f) with hm
  set sorted := cand.insertionSort qLE with hs
  have hperm : List.Perm sorted cand := List.perm_insertionSort qLE cand
  have hsorted : sorted.Sorted qLE := List.sorted_insertionSort qLE cand
  have hres : ndb_query_model store f limit = sorted.take limit := rfl
  refine ⟨?_, ?_, ?_, ?_, ?_, ?_⟩
  · rw [hres, List.length_take]
    omega
  · rw [hres]
    exact hsorted.sublist (List.take_sublist limit sorted)
  · intro p hp
    rw [hres] at hp
    have hp' : p ∈ sorted := List.mem_of_mem_take hp
    have hp2 : p ∈ cand := hperm.mem_iff.mp hp'
    have := List.mem_filter.mp hp2
    exact ⟨this.1, this.2⟩
  · intro q hq hmq hqn p hp
    have hqm : q ∈ cand := List.mem_filter.mpr ⟨hq, hmq⟩
    have hql : q ∈ sorted := hperm.mem_iff.mpr hqm
    rw [hres] at hqn hp
    have hsplit : sorted = sorted.take limit ++ sorted.drop limit :=
      (List.take_append_drop limit sorted).symm
    have hpw : List.Pairwise qLE (sorted.take limit ++ sorted.drop limit) := by
      rw [← hsplit]
      exact hsorted
    have hqd : q ∈ sorted.drop limit := by
      rcases List.mem_append.mp (hsplit ▸ hql) with h | h
      · exact absurd h hqn
      · exact h
    exact ((List.pairwise_append.mp hpw).2.2) p hp q hqd
  · intro hcnt q hq hmq
    have hlen : sorted.length = cand.length := hperm.length_eq
    have htake : sorted.take limit = sorted := by
      apply List.take_of_length_le
      omega
    rw [hres, htake]
    exact hperm.mem_iff.mpr (List.mem_filter.mpr ⟨hq, hmq⟩)
  · intro txn fil htxn hfil
    simp [nativeQuery, htxn, hfil]

/-- A filter selecting kind-1 records. -/
def demoFilter : Filter := [⟨FilterFieldType.kinds, [FilterElem.int 1]⟩]

/-- Witness for C1 at the demonstration store with the kind-1 filter and
limit 1: the newer of the two matching notes (key 3, timestamp 6) is the
one returned, and the bound holds. -/
theorem query_spec_witness :
    ndb_query_model demoStore demoFilter 1 = [(3, demoTaglessNote)] ∧
    (ndb_query_model demoStore demoFilter 1).length ≤ 1 :=
  ⟨by decide, (query_spec demoStore demoFilter 1).1⟩

/-! ## Statistics (`nativeGetStats`, ndb_jni.c lines 746-798) and the
name/count lookups (lines 803-870)

The bridge flattens the engine's statistics into a fixed-order long
array: one (count, key-bytes, value-bytes) triple per physical table,
then one per well-known kind, then the catch-all triple.  The counts
NDB_DBS = 16 and NDB_CKIND_COUNT = 15 are the values the bridging
source states for the nostrdb constants and reports through
`nativeGetDbCount` / `nativeGetCommonKindCount`. -/

/-- Number of physical tables (NDB_DBS = 16 per the bridging source). -/
def NDB_DBS : Nat := 16

/-- Number of well-known kinds (NDB_CKIND_COUNT = 15 per the bridging
source). -/
def NDB_CKIND_COUNT : Nat := 15

/-- `nativeGetDbCount` (ndb_jni.c lines 853-859): returns NDB_DBS. -/
def nativeGetDbCount : Nat := NDB_DBS

/-- `nativeGetCommonKindCount` (ndb_jni.c lines 864-870): returns
NDB_CKIND_COUNT. -/
def nativeGetCommonKindCount : Nat := NDB_CKIND_COUNT

/-- One `ndb_stat_counts` entry: record count, cumulative key bytes,
cumulative value bytes. -/
structure NdbStatCounts : Type where
  count : Nat
  key_size : Nat
  value_size : Nat
deriving DecidableEq

/-- The engine's `ndb_stat` result: per-table entries, per-known-kind
entries, and the catch-all entry for unrecognized kinds. -/
structure NdbStat : Type where
  dbs : List NdbStatCounts
  common_kinds : List NdbStatCounts
  other_kinds : NdbStatCounts
deriving DecidableEq

/-- The three values the bridge writes for one statistics entry, in
source order: count, key_size, value_size. -/
def statTriple (s : NdbStatCounts) : List Nat :=
  [s.count, s.key_size, s.value_size]

/-- `nativeGetStats` (ndb_jni.c lines 746-798): the flat value array in
the fixed order — all table triples, then all well-known-kind triples,
then the catch-all triple. -/
def nativeGetStats (st : NdbStat) : List Nat :=
  (st.dbs.map statTriple).flatten ++
    ((st.common_kinds.map statTriple).flatten ++ statTriple st.other_kinds)

/-- Flattened statistics triples occupy three values per entry. -/
theorem length_flatten_statTriple : ∀ l : List NdbStatCounts,
    ((l.map statTriple).flatten).length = 3 * l.length := by
  intro l
  induction l with
  | nil => rfl
  | cons a l ih =>
    simp only [List.map_cons, List.flatten_cons, List.length_append, ih,
      List.length_cons, statTriple, List.length_nil]
    omega

/-- Dropping past a left segment of an append lands in the right one. -/
theorem drop_append_len : ∀ (A B : List Nat) (n : Nat),
    (A ++ B).drop (A.length + n) = B.drop n := by
  intro A
  induction A with
  | nil => intro B n; simp
  | cons a A ih =>
    intro B n
    simp only [List.cons_append, List.length_cons]
    have : A.length + 1 + n = (A.length + n) + 1 := by omega
    rw [this, List.drop_succ_cons, ih]

/-- Entry `i` of a flattened statistics segment sits at offset `3 * i`,
whatever follows the segment. -/
theorem triple_at_flatten : ∀ (l : List NdbStatCounts) (rest : List Nat)
    (i : Nat) (h : i < l.length),
    ((((l.map statTriple).flatten) ++ rest).drop (3 * i)).take 3
      = statTriple (l.get ⟨i, h⟩) := by
  intro l
  induction l with
  | nil => intro rest i h; exact absurd h (Nat.not_lt_zero i)
  | cons a l ih =>
    intro rest i h
    cases i with
    | zero => simp [statTriple]
    | succ i =>
      have h3 : 3 * (i + 1) = 3 * i + 1 + 1 + 1 := by omega
      rw [h3]
      simp only [List.map_cons, List.flatten_cons, statTriple,
        List.cons_append, List.drop_succ_cons, List.append_assoc]
      exact ih rest i (Nat.lt_of_succ_lt_succ h)

/-- C7: the stats call returns the fixed-shape numeric table —
(NDB_DBS + NDB_CKIND_COUNT + 1) × 3 values, the two counts being the
constants `nativeGetDbCount` / `nativeGetCommonKindCount` also report —
with the (count, key-bytes, value-bytes) triple of physical table `i`
at offset `3 i`, the triple of well-known kind `j` at offset
`3·NDB_DBS + 3 j`, and the single catch-all triple last. -/
theorem stats_shape_spec (st : NdbStat)
    (hdb : st.dbs.length = NDB_DBS)
    (hck : st.common_kinds.length = NDB_CKIND_COUNT) :
    (nativeGetStats st).length
      = (nativeGetDbCount + nativeGetCommonKindCount + 1) * 3 ∧
    (∀ i (h : i < NDB_DBS),
      ((nativeGetStats st).drop (3 * i)).take 3
        = statTriple (st.dbs.get ⟨i, by omega⟩)) ∧
    (∀ j (h : j < NDB_CKIND_COUNT),
      ((nativeGetStats st).drop (3 * NDB_DBS + 3 * j)).take 3
        = statTriple (st.common_kinds.get ⟨j, by omega⟩)) ∧
    ((nativeGetStats st).drop (3 * (NDB_DBS + NDB_CKIND_COUNT))
      = statTriple st.other_kinds) := by
  have hlenA : ((st.dbs.map statTriple).flatten).length = 3 * NDB_DBS := by
    rw [length_flatten_statTriple, hdb]
  have hlenB : ((st.common_kinds.map statTriple).flatten).length
      = 3 * NDB_CKIND_COUNT := by
    rw [length_flatten_statTriple, hck]
  refine ⟨?_, ?_, ?_, ?_⟩
  · simp only [nativeGetStats, List.length_append, hlenA, hlenB, statTriple,
      List.length_cons, List.length_nil, nativeGetDbCount, nativeGetCommonKindCount]
    omega
  · intro i h
    exact triple_at_flatten st.dbs _ i (by omega)
  · intro j h
    have hoff : 3 * NDB_DBS + 3 * j
        = ((st.dbs.map statTriple).flatten).length + 3 * j := by
      rw [hlenA]
    rw [nativeGetStats, hoff, drop_append_len]
    exact triple_at_flatten st.common_kinds _ j (by omega)
  · have hoff : 3 * (NDB_DBS + NDB_CKIND_COUNT)
      = ((st.dbs.map statTriple).flatten).length
        + (((st.common_kinds.map statTriple).flatten).length + 0) := by
      rw [hlenA, hlenB]; omega
    rw [nativeGetStats, hoff, ← Nat.add_assoc]
    rw [show ((st.dbs.map statTriple).flatten).length
          + ((st.common_kinds.map statTriple).flatten).length + 0
        = ((st.dbs.map statTriple).flatten).length
          + (((st.common_kinds.map statTriple).flatten).length + 0) from by omega]
    rw [drop_append_len, drop_append_len]
    rfl

/-- A concrete statistics value with the fixed shape. -/
def demoStat : NdbStat :=
  { dbs := List.replicate 16 ⟨1, 2, 3⟩
    common_kinds := List.replicate 15 ⟨4, 5, 6⟩
    other_kinds := ⟨7, 8, 9⟩ }

/-- Witness for C7 at the concrete statistics value: 96 values. -/
theorem stats_shape_spec_witness :
    (nativeGetStats demoStat).length
      = (nativeGetDbCount + nativeGetCommonKindCount + 1) * 3 :=
  (stats_shape_spec demoStat (by decide) (by decide)).1

/-- The common kind display names (ndb_jni.c lines 827-843). -/
def commonKindNames : List String :=
  ["Profile", "Text", "Contacts", "DM", "Delete", "Repost", "Reaction",
   "Zap", "Zap Request", "NWC Request", "NWC Response", "HTTP Auth",
   "List", "Long-form", "Status"]

/-- `nativeGetCommonKindName` (ndb_jni.c lines 820-848): NULL unless
`0 ≤ kind_index < NDB_CKIND_COUNT`, otherwise the table entry at that
index. -/
def nativeGetCommonKindName (i : Int) : Option String :=
  if i < 0 ∨ (NDB_CKIND_COUNT : Int) ≤ i then none
  else commonKindNames.get? i.toNat

/-- `nativeGetDbName` (ndb_jni.c lines 803-815): NULL unless
`0 ≤ db_index < NDB_DBS`, otherwise the engine's name for that table.
The engine's `ndb_db_name` is absent from the bridging source and is
modelled from the spec ("table … name lookups by index") as a total
name assignment `dbName`. -/
def nativeGetDbName (dbName : Nat → String) (i : Int) : Option String :=
  if i < 0 ∨ (NDB_DBS : Int) ≤ i then none
  else some (dbName i.toNat)

/-- C9: both name lookups return a name exactly for indices at least 0
and strictly below the corresponding reported count, and null for every
out-of-range index; the kind-name table has exactly
`nativeGetCommonKindCount` entries, so the guarded access never reads
out of bounds. -/
theorem name_lookup_range_spec (dbName : Nat → String) (i : Int) :
    ((nativeGetDbName dbName i).isSome
      ↔ 0 ≤ i ∧ i < (nativeGetDbCount : Int)) ∧
    ((nativeGetCommonKindName i).isSome
      ↔ 0 ≤ i ∧ i < (nativeGetCommonKindCount : Int)) ∧
    commonKindNames.length = nativeGetCommonKindCount := by
  refine ⟨?_, ?_, by decide⟩
  · by_cases hc : i < 0 ∨ (NDB_DBS : Int) ≤ i
    · simp only [nativeGetDbName, if_pos hc, Option.isSome_none]
      constructor
      · intro h; cases h
      · intro h
        exfalso
        simp only [nativeGetDbCount, NDB_DBS] at h
        simp only [NDB_DBS] at hc
        omega
    · simp only [nativeGetDbName, if_neg hc, Option.isSome_some]
      constructor
      · intro _
        simp only [nativeGetDbCount, NDB_DBS]
        simp only [NDB_DBS] at hc
        omega
      · intro _; trivial
  · by_cases hc : i < 0 ∨ (NDB_CKIND_COUNT : Int) ≤ i
    · simp only [nativeGetCommonKindName, if_pos hc, Option.isSome_none]
      constructor
      · intro h; cases h
      · intro h
        exfalso
        simp only [nativeGetCommonKindCount, NDB_CKIND_COUNT] at h
        simp only [NDB_CKIND_COUNT] at hc
        omega
    · have hlt : i.toNat < commonKindNames.length := by
        simp only [NDB_CKIND_COUNT] at hc
        simp only [commonKindNames, List.length_cons, List.length_nil]
        omega
      simp only [nativeGetCommonKindName, if_neg hc,
        List.get?_eq_get hlt, Option.isSome_some]
      constructor
      · intro _
        simp only [nativeGetCommonKindCount, NDB_CKIND_COUNT]
        simp only [NDB_CKIND_COUNT] at hc
        omega
      · intro _; trivial

end NdbJni
